import Mathlib

/-!
Verification of the ThreadPool repository (`threadpool.h` and its
implementation file).

The pool's shared state, as observed under the single queue mutex
`taskQueMtx_`, is embedded as a Lean structure `Pool`.  Each code section
that runs atomically under that mutex (the body of `submitTask`, the
claiming block of `threadFunc`, the idle-reclamation branch, the shutdown
exit branch, `start`, the setters and the destructor's first half) is
translated into a pure Lean function on `Pool`.  A transition relation
`Step` interleaves those atomic sections, one per lock acquisition, which
is the standard interleaving semantics for code whose shared data is only
touched while holding one lock.

Task Envelopes (`std::function<void()>` values) are opaque: the queue is a
`List τ` for an arbitrary type `τ`, with the front of the queue at the head
of the list.  Machine integers (`int`, `std::atomic_int`) are embedded as
`Int`; the one place where C++ integer conversion matters — the
`(size_t)taskQueMaxThreshHold_` cast inside `submitTask` — is modelled
explicitly by `toSizeT`.
-/

namespace ThreadPoolModel

/-- Pool working mode (`enum class PoolMode` in `threadpool.h`). -/
inductive PoolMode where
  | MODE_FIXED
  | MODE_CACHED
deriving DecidableEq

/-- Position of a live worker thread inside `ThreadPool::threadFunc`: either
looping/blocked trying to claim a task, or executing a claimed task outside
the lock. -/
inductive WStatus where
  | idle
  | executing
deriving DecidableEq

/-- `const int TASK_MAX_THRESHHOLD = INT32_MAX`. -/
def TASK_MAX_THRESHHOLD : Int := 2147483647

/-- `const int THREAD_MAX_THRESHHOLD = 1024`. -/
def THREAD_MAX_THRESHHOLD : Int := 1024

/-- `const int THREAD_MAX_IDLE_TIME = 60` (seconds). -/
def THREAD_MAX_IDLE_TIME : Int := 60

/-- The shared state of `class ThreadPool`.  The fields up to
`isPoolRunning_` are the C++ data members (`threads_` keeps the map keys
together with whether the stored `unique_ptr` holds a real `Thread` object,
`false` marking a null entry default-constructed by `operator[]`), and
`generateId_` is the static counter `Thread::generateId_`.  The remaining
fields are ghost state used to phrase the specification: `workers` lists the
live OS threads currently running `threadFunc` with their loop position,
`exitedNoDec` counts workers that returned through the shutdown branch
(which erases the map entry but decrements no counter), and
`enqHist`/`deqHist` record the order in which envelopes were pushed and
popped. -/
structure Pool (τ : Type) where
  threads_ : List (Nat × Bool)
  initThreadSize_ : Int
  threadSizeThreshHold_ : Int
  curThreadSize_ : Int
  idleThreadSize_ : Int
  taskQue_ : List τ
  taskSize_ : Int
  taskQueMaxThreshHold_ : Int
  poolMode_ : PoolMode
  isPoolRunning_ : Bool
  generateId_ : Nat
  workers : List (Nat × WStatus)
  exitedNoDec : Nat
  enqHist : List τ
  deqHist : List τ
deriving DecidableEq

/-- `ThreadPool::ThreadPool()` — the member-initialiser list of the
constructor. -/
def poolCtor {τ : Type} : Pool τ where
  threads_ := []
  initThreadSize_ := 0
  threadSizeThreshHold_ := THREAD_MAX_THRESHHOLD
  curThreadSize_ := 0
  idleThreadSize_ := 0
  taskQue_ := []
  taskSize_ := 0
  taskQueMaxThreshHold_ := TASK_MAX_THRESHHOLD
  poolMode_ := PoolMode.MODE_FIXED
  isPoolRunning_ := false
  generateId_ := 0
  workers := []
  exitedNoDec := 0
  enqHist := []
  deqHist := []

/-- `ThreadPool::checkPoolRunningState`. -/
def ThreadPool.checkPoolRunningState {τ} (s : Pool τ) : Bool :=
  s.isPoolRunning_

/-- `ThreadPool::setMode`. -/
def ThreadPool.setMode {τ} (s : Pool τ) (mode : PoolMode) : Pool τ :=
  if ThreadPool.checkPoolRunningState s then s
  else { s with poolMode_ := mode }

/-- `ThreadPool::setTaskQueMaxThreshHold`. -/
def ThreadPool.setTaskQueMaxThreshHold {τ} (s : Pool τ) (threshhold : Int) :
    Pool τ :=
  if ThreadPool.checkPoolRunningState s then s
  else { s with taskQueMaxThreshHold_ := threshhold }

/-- `ThreadPool::setThreadSizeThreshHold`.  The returned Bool is true iff
the `std::cerr` diagnostic ("The thread pool mode is not Cached mode.") is
emitted. -/
def ThreadPool.setThreadSizeThreshHold {τ} (s : Pool τ) (threshhold : Int) :
    Pool τ × Bool :=
  if ThreadPool.checkPoolRunningState s then (s, false)
  else if s.poolMode_ = PoolMode.MODE_CACHED then
    ({ s with threadSizeThreshHold_ := threshhold }, false)
  else (s, true)

/-- The C++ conversion `(size_t)i` applied to an `int` value on a 64-bit
host: reduction modulo `2^64` (so a negative threshold becomes huge). -/
def toSizeT (i : Int) : Nat :=
  (i % (18446744073709551616 : Int)).toNat

/-- Search of the `threads_` map by key, requiring that the stored
`unique_ptr` holds a real `Thread` object. -/
def lookupReal (k : Nat) (ths : List (Nat × Bool)) : Bool :=
  ths.any fun e => e.1 == k && e.2

/-- Membership of a key in the `threads_` map. -/
def hasKey (k : Nat) (ths : List (Nat × Bool)) : Bool :=
  ths.any fun e => e.1 == k

/-- `threads_.erase(key)`. -/
def eraseKey (k : Nat) (ths : List (Nat × Bool)) : List (Nat × Bool) :=
  ths.filter fun e => !(e.1 == k)

/-- The second loop of `ThreadPool::start`, `threads_[i]->start()` for the
loop indices `i ∈ [0, cnt)`: when index `i` is a key holding a real `Thread`,
its `start()` runs (`some i`); when the key is absent, `operator[]`
default-constructs a null `unique_ptr` and the arrow dereferences null
(`none`). -/
def launchCalls (ths : List (Nat × Bool)) (cnt : Nat) : List (Option Nat) :=
  (List.range cnt).map fun i => if lookupReal i ths then some i else none

/-- `ThreadPool::start(initThreadSize)`: sets the running flag, initialises
the three counters, constructs `initThreadSize` `Thread` objects whose ids
are drawn from the static counter `generateId_`, inserts them into
`threads_`, then runs the launch loop `threads_[i]->start()` for
`i = 0 .. initThreadSize-1`.  The result pairs the new pool state with the
list of launch calls made by that loop; launching a real `Thread` puts a new
live worker (initially idle, about to enter `threadFunc`) into the ghost
`workers` list, while a missing key additionally leaves a null entry in the
map. -/
def ThreadPool.start {τ} (s : Pool τ) (initThreadSize : Int) :
    Pool τ × List (Option Nat) :=
  let cnt := initThreadSize.toNat
  let ids := List.range' s.generateId_ cnt
  let ths1 := s.threads_ ++ ids.map fun i => (i, true)
  let calls := launchCalls ths1 cnt
  let nullKeys := (List.range cnt).filter fun i => !(hasKey i ths1)
  let launched := (List.range cnt).filter fun i => lookupReal i ths1
  ({ s with
      isPoolRunning_ := true
      initThreadSize_ := initThreadSize
      curThreadSize_ := initThreadSize
      idleThreadSize_ := initThreadSize
      generateId_ := s.generateId_ + cnt
      threads_ := ths1 ++ nullKeys.map fun i => (i, false)
      workers := s.workers ++ launched.map fun i => (i, WStatus.idle) },
    calls)

/-- `start`'s default argument `std::thread::hardware_concurrency()`; the
host's detected hardware parallelism is a parameter of the model. -/
def ThreadPool.startDefault {τ} (s : Pool τ) (hardwareConcurrency : Nat) :
    Pool τ × List (Option Nat) :=
  ThreadPool.start s (hardwareConcurrency : Int)

/-- The body of `ThreadPool::submitTask` under the queue lock.  The guard is
the predicate of the `notFull_.wait_for` call, `taskQue_.size() <
(size_t)taskQueMaxThreshHold_`; the hypothesis that the queue stayed full for
the whole 1-second wait is the guard being false.  On acceptance the envelope
is pushed, `taskSize_++` runs, and the cached-mode branch may construct and
start exactly one extra `Thread` (keyed correctly here:
`threads_[threadId]->start()`).  On rejection nothing in the pool is touched:
the substitute lambda `[]() -> Rtype { return Rtype(); }` is packaged and run
instead of the caller's callable.  Returns the new pool, whether the envelope
was accepted, and the number of workers spawned. -/
def ThreadPool.submitTask {τ} (s : Pool τ) (env : τ) : Pool τ × Bool × Nat :=
  if s.taskQue_.length < toSizeT s.taskQueMaxThreshHold_ then
    let s1 : Pool τ :=
      { s with taskQue_ := s.taskQue_ ++ [env]
               taskSize_ := s.taskSize_ + 1
               enqHist := s.enqHist ++ [env] }
    if s1.poolMode_ = PoolMode.MODE_CACHED ∧
        s1.taskSize_ > s1.idleThreadSize_ ∧
        s1.curThreadSize_ < s1.threadSizeThreshHold_ then
      let threadId := s1.generateId_
      ({ s1 with
          generateId_ := threadId + 1
          threads_ := s1.threads_ ++ [(threadId, true)]
          workers := s1.workers ++ [(threadId, WStatus.idle)]
          curThreadSize_ := s1.curThreadSize_ + 1
          idleThreadSize_ := s1.idleThreadSize_ + 1 }, true, 1)
    else (s1, true, 0)
  else (s, false, 0)

/-- The `std::future` returned by `submitTask`, at the moment `submitTask`
returns: pending (`none`) when the envelope was accepted; on rejection the
substitute task has already been executed, so the future is already
fulfilled with a default-constructed value `dflt` and the caller's callable
was never invoked. -/
def submitHandle {R : Type} (accepted : Bool) (dflt : R) : Option R :=
  if accepted then none else some dflt

/-- The claiming section of `ThreadPool::threadFunc`, entered exactly when
the `while (taskQue_.size() == 0)` guard fails: `idleThreadSize_--`, read
`taskQue_.front()`, `taskQue_.pop()`, `taskSize_--`, then
`notEmpty_.notify_all()` iff the queue is still non-empty, and
`notFull_.notify_all()` unconditionally.  Returns the claimed envelope, the
updated pool, and the two notification facts; `none` when the queue is
empty (the code then waits or exits instead). -/
def claimTask {τ} (s : Pool τ) : Option (τ × Pool τ × Bool × Bool) :=
  match s.taskQue_ with
  | [] => none
  | t :: rest =>
    some (t,
      { s with idleThreadSize_ := s.idleThreadSize_ - 1
               taskQue_ := rest
               taskSize_ := s.taskSize_ - 1
               deqHist := s.deqHist ++ [t] },
      decide (0 < rest.length), true)

/-- The idle-reclamation test of `threadFunc`'s cached-mode timeout branch:
`dur.count() >= THREAD_MAX_IDLE_TIME && curThreadSize_ > initThreadSize_`,
where `dur = duration_cast<seconds>(now - lastTime)` truncates the elapsed
nanoseconds to whole seconds. -/
def reclaimCheck (elapsedNs : Nat) (cur initial : Int) : Bool :=
  decide (THREAD_MAX_IDLE_TIME ≤ ((elapsedNs / 1000000000 : Nat) : Int)) &&
    decide (initial < cur)

/-- The cached-mode timeout branch of `threadFunc`: when `reclaimCheck`
passes, the worker erases itself from `threads_`, decrements
`curThreadSize_` and `idleThreadSize_`, and returns (the Bool records that
the thread terminated); otherwise nothing changes and the loop continues. -/
def reclaimWorker {τ} (s : Pool τ) (threadid : Nat) (elapsedNs : Nat) :
    Pool τ × Bool :=
  if reclaimCheck elapsedNs s.curThreadSize_ s.initThreadSize_ then
    ({ s with threads_ := eraseKey threadid s.threads_
              curThreadSize_ := s.curThreadSize_ - 1
              idleThreadSize_ := s.idleThreadSize_ - 1 }, true)
  else (s, false)

/-- The shutdown branch of `threadFunc`, reached only when the queue is
empty and `isPoolRunning_` is false: the worker erases its map entry,
signals `exitCond_`, and returns.  No counter is decremented here. -/
def shutdownExit {τ} (s : Pool τ) (threadid : Nat) : Pool τ :=
  { s with threads_ := eraseKey threadid s.threads_ }

/-- The first half of `ThreadPool::~ThreadPool()`: `isPoolRunning_ = false`
(the destructor then wakes all workers and blocks on `exitCond_` until
`threads_` is empty). -/
def stopBegin {τ} (s : Pool τ) : Pool τ :=
  { s with isPoolRunning_ := false }

/-- One atomic transition of the pool: each constructor is one lock-guarded
code section of the source, executed by a submitter, a worker, or the
controller.  A worker performing a section is an element of the ghost
`workers` list, identified by splitting that list.  `startP` is the source
`start` on an arbitrary state — the code performs no precondition check, so
a pre-start cached submission may already have spawned workers (the launch
loop then relaunches their `Thread` objects and may leave the newest ids
unstarted or insert null entries, as `ThreadPool.start` computes). -/
inductive Step {τ : Type} : Pool τ → Pool τ → Prop where
  | startP (s : Pool τ) (n : Int) :
    Step s (ThreadPool.start s n).1
  | submit (s : Pool τ) (env : τ) :
    Step s (ThreadPool.submitTask s env).1
  | claim (s : Pool τ) (w : Nat) (l1 l2 : List (Nat × WStatus)) (t : τ)
      (s1 : Pool τ) (b1 b2 : Bool)
      (hw : s.workers = l1 ++ (w, WStatus.idle) :: l2)
      (hc : claimTask s = some (t, s1, b1, b2)) :
    Step s { s1 with workers := l1 ++ (w, WStatus.executing) :: l2 }
  | finish (s : Pool τ) (w : Nat) (l1 l2 : List (Nat × WStatus))
      (hw : s.workers = l1 ++ (w, WStatus.executing) :: l2) :
    Step s { s with workers := l1 ++ (w, WStatus.idle) :: l2
                    idleThreadSize_ := s.idleThreadSize_ + 1 }
  | reclaim (s : Pool τ) (w : Nat) (l1 l2 : List (Nat × WStatus)) (e : Nat)
      (hw : s.workers = l1 ++ (w, WStatus.idle) :: l2)
      (hm : s.poolMode_ = PoolMode.MODE_CACHED)
      (hchk : reclaimCheck e s.curThreadSize_ s.initThreadSize_ = true) :
    Step s { (reclaimWorker s w e).1 with workers := l1 ++ l2 }
  | exitSd (s : Pool τ) (w : Nat) (l1 l2 : List (Nat × WStatus))
      (hw : s.workers = l1 ++ (w, WStatus.idle) :: l2)
      (hq : s.taskQue_ = []) (hr : s.isPoolRunning_ = false) :
    Step s { shutdownExit s w with workers := l1 ++ l2
                                   exitedNoDec := s.exitedNoDec + 1 }
  | stopB (s : Pool τ) :
    Step s (stopBegin s)

/-- The configuration phase: the freshly constructed pool followed by any
sequence of setter calls (which act because the pool is not running). -/
inductive Config {τ : Type} : Pool τ → Prop where
  | ctor : Config (poolCtor : Pool τ)
  | setM (s : Pool τ) (m : PoolMode) :
    Config s → Config (ThreadPool.setMode s m)
  | setQ (s : Pool τ) (t : Int) :
    Config s → Config (ThreadPool.setTaskQueMaxThreshHold s t)
  | setT (s : Pool τ) (t : Int) :
    Config s → Config (ThreadPool.setThreadSizeThreshHold s t).1

/-- Reachability: a configuration state followed by any interleaving of the
atomic sections. -/
inductive Reach {τ : Type} : Pool τ → Prop where
  | config (s : Pool τ) : Config s → Reach s
  | step (s s2 : Pool τ) : Reach s → Step s s2 → Reach s2

/-- Guarded configuration: as `Config`, but the thresholds installed are
nonnegative `int` values (the amendment to claim C4 assumes a sane
configuration; the source performs no validation). -/
inductive GConfig {τ : Type} : Pool τ → Prop where
  | ctor : GConfig (poolCtor : Pool τ)
  | setM (s : Pool τ) (m : PoolMode) :
    GConfig s → GConfig (ThreadPool.setMode s m)
  | setQ (s : Pool τ) (t : Int) (h0 : 0 ≤ t) (h1 : t < 2147483648) :
    GConfig s → GConfig (ThreadPool.setTaskQueMaxThreshHold s t)
  | setT (s : Pool τ) (t : Int) (h0 : 0 ≤ t) :
    GConfig s → GConfig (ThreadPool.setThreadSizeThreshHold s t).1

/-- Guarded reachability: as `Reach`, but restricted to the usage
assumptions of the amendment of claim C4: the configured thresholds are
nonnegative, and `start` is invoked only as the pool's first
thread-creating operation — on the not-yet-running pool before any
`Thread` has been constructed (empty map and live set, id counter still 0,
no shutdown exits) — with a nonnegative count that in cached mode is at
most `threadSizeThreshHold_`.  Without the fresh-start restriction the
invariant fails on the source: a cached-mode submission before `start`
already spawns a worker, and `start` then relaunches that old `Thread`
while resetting the counters (see the C4 counterexample). -/
inductive GReach {τ : Type} : Pool τ → Prop where
  | config (s : Pool τ) : GConfig s → GReach s
  | startP (s : Pool τ) (n : Int) (h0 : 0 ≤ n) (hr : s.isPoolRunning_ = false)
      (ht : s.threads_ = []) (hw : s.workers = []) (hg : s.generateId_ = 0)
      (hx : s.exitedNoDec = 0)
      (hguard : s.poolMode_ = PoolMode.MODE_CACHED →
        n ≤ s.threadSizeThreshHold_) :
    GReach s → GReach (ThreadPool.start s n).1
  | submit (s : Pool τ) (env : τ) :
    GReach s → GReach (ThreadPool.submitTask s env).1
  | claim (s : Pool τ) (w : Nat) (l1 l2 : List (Nat × WStatus)) (t : τ)
      (s1 : Pool τ) (b1 b2 : Bool)
      (hw : s.workers = l1 ++ (w, WStatus.idle) :: l2)
      (hc : claimTask s = some (t, s1, b1, b2)) :
    GReach s → GReach { s1 with workers := l1 ++ (w, WStatus.executing) :: l2 }
  | finish (s : Pool τ) (w : Nat) (l1 l2 : List (Nat × WStatus))
      (hw : s.workers = l1 ++ (w, WStatus.executing) :: l2) :
    GReach s → GReach { s with workers := l1 ++ (w, WStatus.idle) :: l2
                               idleThreadSize_ := s.idleThreadSize_ + 1 }
  | reclaim (s : Pool τ) (w : Nat) (l1 l2 : List (Nat × WStatus)) (e : Nat)
      (hw : s.workers = l1 ++ (w, WStatus.idle) :: l2)
      (hm : s.poolMode_ = PoolMode.MODE_CACHED)
      (hchk : reclaimCheck e s.curThreadSize_ s.initThreadSize_ = true) :
    GReach s → GReach { (reclaimWorker s w e).1 with workers := l1 ++ l2 }
  | exitSd (s : Pool τ) (w : Nat) (l1 l2 : List (Nat × WStatus))
      (hw : s.workers = l1 ++ (w, WStatus.idle) :: l2)
      (hq : s.taskQue_ = []) (hr : s.isPoolRunning_ = false) :
    GReach s → GReach { shutdownExit s w with workers := l1 ++ l2
                                              exitedNoDec := s.exitedNoDec + 1 }
  | stopB (s : Pool τ) :
    GReach s → GReach (stopBegin s)

/-- Number of live workers currently in the idle part of their loop. -/
def countIdle (l : List (Nat × WStatus)) : Nat :=
  l.countP fun w => w.2 == WStatus.idle

/-- The inductive invariant for claim C4 (amended): threshold sanity, the
task counter mirrors the queue length and respects the queue bound, the two
thread counters are determined by the ghost worker bookkeeping, and the
cached-mode ceiling bounds `curThreadSize_`. -/
def Inv {τ : Type} (s : Pool τ) : Prop :=
  0 ≤ s.taskQueMaxThreshHold_ ∧
  s.taskQueMaxThreshHold_ < 18446744073709551616 ∧
  0 ≤ s.threadSizeThreshHold_ ∧
  s.taskSize_ = (s.taskQue_.length : Int) ∧
  s.taskSize_ ≤ s.taskQueMaxThreshHold_ ∧
  s.idleThreadSize_ = (countIdle s.workers : Int) + (s.exitedNoDec : Int) ∧
  s.curThreadSize_ = (s.workers.length : Int) + (s.exitedNoDec : Int) ∧
  (s.poolMode_ = PoolMode.MODE_CACHED →
    s.curThreadSize_ ≤ s.threadSizeThreshHold_)

/-- Every configuration state is the constructor state except possibly for
the mode and the two thresholds. -/
theorem config_char {τ : Type} {s : Pool τ} (h : Config s) :
    s.threads_ = [] ∧ s.workers = [] ∧ s.exitedNoDec = 0 ∧
    s.curThreadSize_ = 0 ∧ s.idleThreadSize_ = 0 ∧ s.taskQue_ = [] ∧
    s.taskSize_ = 0 ∧ s.enqHist = [] ∧ s.deqHist = [] ∧
    s.generateId_ = 0 ∧ s.isPoolRunning_ = false ∧
    s.initThreadSize_ = 0 := by
  induction h with
  | ctor => exact ⟨rfl, rfl, rfl, rfl, rfl, rfl, rfl, rfl, rfl, rfl, rfl, rfl⟩
  | setM s m _ ih =>
    obtain ⟨h1, h2, h3, h4, h5, h6, h7, h8, h9, h10, h11, h12⟩ := ih
    simp [ThreadPool.setMode, ThreadPool.checkPoolRunningState, h11,
      h1, h2, h3, h4, h5, h6, h7, h8, h9, h10, h12]
  | setQ s t _ ih =>
    obtain ⟨h1, h2, h3, h4, h5, h6, h7, h8, h9, h10, h11, h12⟩ := ih
    simp [ThreadPool.setTaskQueMaxThreshHold, ThreadPool.checkPoolRunningState,
      h11, h1, h2, h3, h4, h5, h6, h7, h8, h9, h10, h12]
  | setT s t _ ih =>
    obtain ⟨h1, h2, h3, h4, h5, h6, h7, h8, h9, h10, h11, h12⟩ := ih
    by_cases hc : s.poolMode_ = PoolMode.MODE_CACHED <;>
      simp [ThreadPool.setThreadSizeThreshHold, ThreadPool.checkPoolRunningState,
        h11, hc, h1, h2, h3, h4, h5, h6, h7, h8, h9, h10, h12]

/-- Guarded configuration refines plain configuration. -/
theorem gconfig_config {τ : Type} {s : Pool τ} (h : GConfig s) : Config s := by
  induction h with
  | ctor => exact Config.ctor
  | setM s m _ ih => exact Config.setM s m ih
  | setQ s t _ _ _ ih => exact Config.setQ s t ih
  | setT s t _ _ ih => exact Config.setT s t ih

/-- In a guarded configuration the thresholds are in range. -/
theorem gconfig_bounds {τ : Type} {s : Pool τ} (h : GConfig s) :
    0 ≤ s.taskQueMaxThreshHold_ ∧
    s.taskQueMaxThreshHold_ < 18446744073709551616 ∧
    0 ≤ s.threadSizeThreshHold_ := by
  induction h with
  | ctor =>
    refine ⟨?_, ?_, ?_⟩ <;>
      norm_num [poolCtor, TASK_MAX_THRESHHOLD, THREAD_MAX_THRESHHOLD]
  | setM s m hs ih =>
    have hr : s.isPoolRunning_ = false := (config_char (gconfig_config hs)).2.2.2.2.2.2.2.2.2.2.1
    simpa [ThreadPool.setMode, ThreadPool.checkPoolRunningState, hr] using ih
  | setQ s t h0 h1 hs ih =>
    have hr : s.isPoolRunning_ = false := (config_char (gconfig_config hs)).2.2.2.2.2.2.2.2.2.2.1
    simp [ThreadPool.setTaskQueMaxThreshHold, ThreadPool.checkPoolRunningState, hr]
    exact ⟨h0, by omega, ih.2.2⟩
  | setT s t h0 hs ih =>
    have hr : s.isPoolRunning_ = false := (config_char (gconfig_config hs)).2.2.2.2.2.2.2.2.2.2.1
    by_cases hc : s.poolMode_ = PoolMode.MODE_CACHED <;>
      simp [ThreadPool.setThreadSizeThreshHold, ThreadPool.checkPoolRunningState, hr, hc] <;>
      exact ⟨ih.1, ih.2.1, by omega⟩

/-- Key search over a map whose stored pointers are all real. -/
theorem lookupReal_map_true (l : List Nat) (k : Nat) :
    lookupReal k (l.map fun i => (i, true)) = true ↔ k ∈ l := by
  unfold lookupReal
  constructor
  · intro hx
    rcases List.any_eq_true.mp hx with ⟨e, he, hpe⟩
    rcases List.mem_map.mp he with ⟨i, hi, rfl⟩
    have hik : i = k := by simpa using hpe
    exact hik ▸ hi
  · intro hk
    exact List.any_eq_true.mpr ⟨(k, true), List.mem_map_of_mem _ hk, by simp⟩

/-- Key membership over a map built from a list of ids. -/
theorem hasKey_map_true (l : List Nat) (k : Nat) :
    hasKey k (l.map fun i => (i, true)) = true ↔ k ∈ l := by
  unfold hasKey
  constructor
  · intro hx
    rcases List.any_eq_true.mp hx with ⟨e, he, hpe⟩
    rcases List.mem_map.mp he with ⟨i, hi, rfl⟩
    have hik : i = k := by simpa using hpe
    exact hik ▸ hi
  · intro hk
    exact List.any_eq_true.mpr ⟨(k, true), List.mem_map_of_mem _ hk, by simp⟩

/-- Evaluation of `ThreadPool::start` on a fresh pool (empty map, id counter
still 0): the constructed ids are exactly `0 .. n-1`, the launch loop starts
each of them exactly once, no null entry is created, and every launched
worker enters `threadFunc`. -/
theorem start_fresh {τ : Type} (s : Pool τ) (n : Int)
    (ht : s.threads_ = []) (hg : s.generateId_ = 0) :
    (ThreadPool.start s n).1.threads_ =
      ((List.range n.toNat).map fun i => (i, true)) ∧
    (ThreadPool.start s n).1.workers =
      s.workers ++ ((List.range n.toNat).map fun i => (i, WStatus.idle)) ∧
    (ThreadPool.start s n).2 = (List.range n.toNat).map some := by
  have hrr : List.range' 0 n.toNat = List.range n.toNat :=
    (List.range_eq_range' n.toNat).symm
  have hths : s.threads_ ++ ((List.range' s.generateId_ n.toNat).map
      fun i => (i, true)) = (List.range n.toNat).map fun i => (i, true) := by
    rw [ht, hg, List.nil_append, hrr]
  have hlk : ∀ i ∈ List.range n.toNat,
      lookupReal i ((List.range n.toNat).map fun j => (j, true)) = true :=
    fun i hi => (lookupReal_map_true _ _).mpr hi
  have hnull : ((List.range n.toNat).filter fun i =>
      !(hasKey i ((List.range n.toNat).map fun j => (j, true)))) = [] := by
    rw [List.filter_eq_nil_iff]
    intro a ha
    simp [Bool.not_eq_true', (hasKey_map_true (List.range n.toNat) a).mpr ha]
  have hlaunch : ((List.range n.toNat).filter fun i =>
      lookupReal i ((List.range n.toNat).map fun j => (j, true))) =
      List.range n.toNat :=
    List.filter_eq_self.mpr hlk
  have hcalls : launchCalls ((List.range n.toNat).map fun j => (j, true))
      n.toNat = (List.range n.toNat).map some := by
    unfold launchCalls
    exact List.map_congr_left fun i hi => by rw [hlk i hi]; simp
  refine ⟨?_, ?_, ?_⟩ <;>
    simp only [ThreadPool.start, hths, hnull, hlaunch, hcalls,
      List.map_nil, List.append_nil]

/-- `countIdle` distributes over the splitting of the worker list. -/
theorem countIdle_split (l1 l2 : List (Nat × WStatus)) (w : Nat)
    (st : WStatus) :
    countIdle (l1 ++ (w, st) :: l2) =
      countIdle l1 + countIdle l2 + (if st = WStatus.idle then 1 else 0) := by
  cases st
  all_goals simp [countIdle, List.countP_append, List.countP_cons]
  all_goals omega

/-- Configuration states satisfy the invariant. -/
theorem inv_config {τ : Type} {s : Pool τ} (h : GConfig s) : Inv s := by
  obtain ⟨h1, h2, h3, h4, h5, h6, h7, h8, h9, h10, h11, h12⟩ :=
    config_char (gconfig_config h)
  obtain ⟨b1, b2, b3⟩ := gconfig_bounds h
  refine ⟨b1, b2, b3, ?_, ?_, ?_, ?_, ?_⟩
  · rw [h7, h6]; rfl
  · rw [h7]; exact b1
  · rw [h5, h2, h3]; rfl
  · rw [h4, h2, h3]; rfl
  · intro _; rw [h4]; exact b3

/-- `start` preserves the invariant on a fresh pool, provided the requested
count is nonnegative and, in cached mode, at most the thread ceiling. -/
theorem inv_start {τ : Type} {s : Pool τ} {n : Int} (h0 : 0 ≤ n)
    (ht : s.threads_ = []) (hw : s.workers = []) (hg : s.generateId_ = 0)
    (hx : s.exitedNoDec = 0)
    (hguard : s.poolMode_ = PoolMode.MODE_CACHED →
      n ≤ s.threadSizeThreshHold_)
    (h : Inv s) : Inv (ThreadPool.start s n).1 := by
  obtain ⟨b1, b2, b3, i4, i5, i6, i7, i8⟩ := h
  obtain ⟨e1, e2, e3⟩ := start_fresh s n ht hg
  have hcast : ((n.toNat : Nat) : Int) = n := Int.toNat_of_nonneg h0
  refine ⟨?_, ?_, ?_, ?_, ?_, ?_, ?_, ?_⟩ <;>
    simp only [ThreadPool.start] at e2 ⊢ <;>
    first
    | exact b1
    | exact b2
    | exact b3
    | exact i4
    | exact i5
    | skip
  · -- idleThreadSize_
    rw [e2, hw, hx, List.nil_append]
    have hcnt : countIdle ((List.range n.toNat).map fun i =>
        (i, WStatus.idle)) = n.toNat := by
      simp [countIdle, List.countP_map, Function.comp_def]
    rw [hcnt]
    omega
  · -- curThreadSize_
    rw [e2, hw, hx, List.nil_append]
    simp only [List.length_map, List.length_range]
    omega
  · -- cached-mode ceiling
    intro hm
    exact hguard hm

/-- `submitTask` preserves the invariant. -/
theorem inv_submit {τ : Type} {s : Pool τ} (env : τ) (h : Inv s) :
    Inv (ThreadPool.submitTask s env).1 := by
  obtain ⟨b1, b2, b3, i4, i5, i6, i7, i8⟩ := h
  unfold ThreadPool.submitTask
  by_cases hfull : s.taskQue_.length < toSizeT s.taskQueMaxThreshHold_
  · have hsz : toSizeT s.taskQueMaxThreshHold_ =
        s.taskQueMaxThreshHold_.toNat := by
      unfold toSizeT
      rw [Int.emod_eq_of_lt b1 b2]
    have hlen : (s.taskQue_.length : Int) < s.taskQueMaxThreshHold_ := by
      rw [hsz] at hfull; omega
    rw [if_pos hfull]
    dsimp only
    by_cases hsp : s.poolMode_ = PoolMode.MODE_CACHED ∧
        s.taskSize_ + 1 > s.idleThreadSize_ ∧
        s.curThreadSize_ < s.threadSizeThreshHold_
    · rw [if_pos hsp]
      refine ⟨b1, b2, b3, ?_, ?_, ?_, ?_, ?_⟩
      · dsimp only
        simp only [List.length_append, List.length_cons, List.length_nil]
        push_cast
        omega
      · dsimp only
        omega
      · dsimp only
        simp only [countIdle] at i6 ⊢
        simp [List.countP_append, List.countP_cons]
        omega
      · dsimp only
        simp only [List.length_append, List.length_cons, List.length_nil]
        push_cast
        omega
      · intro hm
        dsimp only at hm ⊢
        omega
    · rw [if_neg hsp]
      refine ⟨b1, b2, b3, ?_, ?_, i6, i7, i8⟩
      · dsimp only
        simp only [List.length_append, List.length_cons, List.length_nil]
        push_cast
        omega
      · dsimp only
        omega
  · rw [if_neg hfull]
    exact ⟨b1, b2, b3, i4, i5, i6, i7, i8⟩

/-- The claiming section preserves the invariant. -/
theorem inv_claim {τ : Type} {s : Pool τ} {w : Nat}
    {l1 l2 : List (Nat × WStatus)} {t : τ} {s1 : Pool τ} {b1 b2 : Bool}
    (hw : s.workers = l1 ++ (w, WStatus.idle) :: l2)
    (hc : claimTask s = some (t, s1, b1, b2)) (h : Inv s) :
    Inv { s1 with workers := l1 ++ (w, WStatus.executing) :: l2 } := by
  obtain ⟨c1, c2, c3, i4, i5, i6, i7, i8⟩ := h
  cases hq : s.taskQue_ with
  | nil => rw [claimTask, hq] at hc; simp at hc
  | cons t0 rest =>
    rw [claimTask, hq] at hc
    simp only [Option.some.injEq, Prod.mk.injEq] at hc
    obtain ⟨hts, hs1, hb1, hb2⟩ := hc
    subst hs1
    have hcw : countIdle s.workers =
        countIdle l1 + countIdle l2 + 1 := by
      rw [hw, countIdle_split]; simp
    have hlw : s.workers.length = l1.length + l2.length + 1 := by
      rw [hw]
      simp only [List.length_append, List.length_cons]
      omega
    have hnew : countIdle (l1 ++ (w, WStatus.executing) :: l2) =
        countIdle l1 + countIdle l2 := by
      rw [countIdle_split]; simp
    refine ⟨c1, c2, c3, ?_, ?_, ?_, ?_, ?_⟩ <;>
      simp only [hnew, List.length_append, List.length_cons, hq,
        List.length_cons] at *
    · omega
    · omega
    · omega
    · simp only [hlw] at i7 ⊢
      omega
    · intro hm
      exact i8 hm

/-- Finishing a task (the `idleThreadSize_++` after execution) preserves the
invariant. -/
theorem inv_finish {τ : Type} {s : Pool τ} {w : Nat}
    {l1 l2 : List (Nat × WStatus)}
    (hw : s.workers = l1 ++ (w, WStatus.executing) :: l2) (h : Inv s) :
    Inv { s with workers := l1 ++ (w, WStatus.idle) :: l2
                 idleThreadSize_ := s.idleThreadSize_ + 1 } := by
  obtain ⟨c1, c2, c3, i4, i5, i6, i7, i8⟩ := h
  have hcw : countIdle s.workers = countIdle l1 + countIdle l2 := by
    rw [hw, countIdle_split]; simp
  have hlw : s.workers.length = l1.length + l2.length + 1 := by
    rw [hw]
    simp only [List.length_append, List.length_cons]
    omega
  have hnew : countIdle (l1 ++ (w, WStatus.idle) :: l2) =
      countIdle l1 + countIdle l2 + 1 := by
    rw [countIdle_split]; simp
  refine ⟨c1, c2, c3, i4, i5, ?_, ?_, ?_⟩
  · simp only [hnew]
    omega
  · simp only [List.length_append, List.length_cons, hlw] at i7 ⊢
    omega
  · intro hm
    exact i8 hm

/-- Idle reclamation preserves the invariant. -/
theorem inv_reclaim {τ : Type} {s : Pool τ} {w : Nat}
    {l1 l2 : List (Nat × WStatus)} {e : Nat}
    (hw : s.workers = l1 ++ (w, WStatus.idle) :: l2)
    (hchk : reclaimCheck e s.curThreadSize_ s.initThreadSize_ = true)
    (h : Inv s) : Inv { (reclaimWorker s w e).1 with workers := l1 ++ l2 } := by
  obtain ⟨c1, c2, c3, i4, i5, i6, i7, i8⟩ := h
  have hcw : countIdle s.workers = countIdle l1 + countIdle l2 + 1 := by
    rw [hw, countIdle_split]; simp
  have hlw : s.workers.length = l1.length + l2.length + 1 := by
    rw [hw]
    simp only [List.length_append, List.length_cons]
    omega
  unfold reclaimWorker
  rw [if_pos hchk]
  refine ⟨c1, c2, c3, i4, i5, ?_, ?_, ?_⟩ <;>
    simp only [countIdle, List.countP_append, List.length_append]
  · simp only [countIdle, List.countP_append, List.countP_cons] at hcw i6
    omega
  · simp only [List.length_append] at hlw
    omega
  · intro hm
    have := i8 hm
    omega

/-- The shutdown exit branch preserves the invariant: the worker leaves the
map and the ghost live set, but the counters are untouched, which the
`exitedNoDec` bookkeeping absorbs. -/
theorem inv_exit {τ : Type} {s : Pool τ} {w : Nat}
    {l1 l2 : List (Nat × WStatus)}
    (hw : s.workers = l1 ++ (w, WStatus.idle) :: l2) (h : Inv s) :
    Inv { shutdownExit s w with workers := l1 ++ l2
                                exitedNoDec := s.exitedNoDec + 1 } := by
  obtain ⟨c1, c2, c3, i4, i5, i6, i7, i8⟩ := h
  have hcw : countIdle s.workers = countIdle l1 + countIdle l2 + 1 := by
    rw [hw, countIdle_split]; simp
  have hlw : s.workers.length = l1.length + l2.length + 1 := by
    rw [hw]
    simp only [List.length_append, List.length_cons]
    omega
  unfold shutdownExit
  refine ⟨c1, c2, c3, i4, i5, ?_, ?_, ?_⟩ <;>
    simp only [countIdle, List.countP_append, List.length_append]
  · simp only [countIdle, List.countP_append, List.countP_cons] at hcw i6
    push_cast
    omega
  · simp only [List.length_append] at hlw
    push_cast
    omega
  · intro hm
    exact i8 hm

/-- The destructor's `isPoolRunning_ = false` preserves the invariant. -/
theorem inv_stop {τ : Type} {s : Pool τ} (h : Inv s) : Inv (stopBegin s) :=
  h

/-- Every guarded-reachable state satisfies the invariant. -/
theorem inv_reach {τ : Type} {s : Pool τ} (h : GReach s) : Inv s := by
  induction h with
  | config s hs => exact inv_config hs
  | startP s n h0 hr ht hw hg hx hguard _ ih =>
    exact inv_start h0 ht hw hg hx hguard ih
  | submit s env _ ih => exact inv_submit env ih
  | claim s w l1 l2 t s1 b1 b2 hw hc _ ih => exact inv_claim hw hc ih
  | finish s w l1 l2 hw _ ih => exact inv_finish hw ih
  | reclaim s w l1 l2 e hw hm hchk _ ih => exact inv_reclaim hw hchk ih
  | exitSd s w l1 l2 hw hq hr _ ih => exact inv_exit hw ih
  | stopB s _ ih => exact inv_stop ih

/-- `submitTask` never touches the shutdown-exit ghost counter. -/
theorem submit_exited {τ : Type} (s : Pool τ) (env : τ) :
    (ThreadPool.submitTask s env).1.exitedNoDec = s.exitedNoDec := by
  unfold ThreadPool.submitTask
  by_cases h1 : s.taskQue_.length < toSizeT s.taskQueMaxThreshHold_
  · rw [if_pos h1]
    dsimp only
    by_cases h2 : s.poolMode_ = PoolMode.MODE_CACHED ∧
        s.taskSize_ + 1 > s.idleThreadSize_ ∧
        s.curThreadSize_ < s.threadSizeThreshHold_
    · rw [if_pos h2]
    · rw [if_neg h2]
  · rw [if_neg h1]

/-- After erasing a key it is gone from the map. -/
theorem hasKey_eraseKey (k : Nat) (l : List (Nat × Bool)) :
    hasKey k (eraseKey k l) = false := by
  unfold hasKey eraseKey
  rw [Bool.eq_false_iff]
  intro hx
  rcases List.any_eq_true.mp hx with ⟨e, he, hpe⟩
  rcases List.mem_filter.mp he with ⟨-, hne⟩
  simp only [beq_iff_eq] at hpe
  simp only [Bool.not_eq_eq_eq_not, Bool.not_true, beq_eq_false_iff_ne] at hne
  exact hne hpe

/-- History invariant: at every reachable state the enqueue history splits
into the dequeue history followed by the current queue contents — tasks
leave the queue in exactly the order they entered it. -/
theorem fifoHist {τ : Type} {s : Pool τ} (h : Reach s) :
    s.enqHist = s.deqHist ++ s.taskQue_ := by
  induction h with
  | config s hs =>
    obtain ⟨-, -, -, -, -, h6, -, h8, h9, -, -, -⟩ := config_char hs
    rw [h8, h9, h6]
    rfl
  | step s s2 hr hstep ih =>
    cases hstep with
    | startP n =>
      simpa [ThreadPool.start] using ih
    | submit env =>
      unfold ThreadPool.submitTask
      by_cases h1 : s.taskQue_.length < toSizeT s.taskQueMaxThreshHold_
      · rw [if_pos h1]
        dsimp only
        by_cases h2 : s.poolMode_ = PoolMode.MODE_CACHED ∧
            s.taskSize_ + 1 > s.idleThreadSize_ ∧
            s.curThreadSize_ < s.threadSizeThreshHold_
        · rw [if_pos h2]
          dsimp only
          rw [ih, List.append_assoc]
        · rw [if_neg h2]
          dsimp only
          rw [ih, List.append_assoc]
      · rw [if_neg h1]
        exact ih
    | claim w l1 l2 t s1 b1 b2 hw hc =>
      cases hq : s.taskQue_ with
      | nil => rw [claimTask, hq] at hc; simp at hc
      | cons t0 rest =>
        rw [claimTask, hq] at hc
        simp only [Option.some.injEq, Prod.mk.injEq] at hc
        obtain ⟨hts, hs1, hb1, hb2⟩ := hc
        subst hs1
        dsimp only
        rw [hq] at ih
        rw [ih, hts, List.append_assoc]
        rfl
    | finish w l1 l2 hw => exact ih
    | reclaim w l1 l2 e hw hm hchk =>
      unfold reclaimWorker
      rw [if_pos hchk]
      exact ih
    | exitSd w l1 l2 hw hq hrr => exact ih
    | stopB => exact ih

/-- C1: if the task queue is still full when the 1-second wait of
`submitTask` expires (in the lock-atomic embedding: the wait predicate
`taskQue_.size() < (size_t)taskQueMaxThreshHold_` is false), the submission
is rejected: the pool — in particular the task queue, the task counter
`taskSize_`, and the enqueue history — is left completely unchanged, no
worker is spawned, and the returned future is already fulfilled with a
default-constructed value.  Because the envelope never enters the queue
(`enqHist` unchanged) and workers only ever execute envelopes they dequeue
(`fifoHist`), the caller's callable is never invoked. -/
theorem c1_reject_submission {τ R : Type} (s : Pool τ) (env : τ) (dflt : R)
    (hFull : ¬ s.taskQue_.length < toSizeT s.taskQueMaxThreshHold_) :
    ThreadPool.submitTask s env = (s, false, 0) ∧
    (ThreadPool.submitTask s env).1.taskQue_ = s.taskQue_ ∧
    (ThreadPool.submitTask s env).1.taskSize_ = s.taskSize_ ∧
    (ThreadPool.submitTask s env).1.enqHist = s.enqHist ∧
    submitHandle (ThreadPool.submitTask s env).2.1 dflt = some dflt := by
  have h1 : ThreadPool.submitTask s env = (s, false, 0) := by
    unfold ThreadPool.submitTask
    rw [if_neg hFull]
  refine ⟨h1, ?_, ?_, ?_, ?_⟩
  all_goals rw [h1]
  all_goals rfl

/-- Concrete full-queue pool used by the C1 witness: queue bound 1, one
envelope already queued. -/
def c1w : Pool Nat :=
  { poolCtor with taskQueMaxThreshHold_ := 1, taskQue_ := [7], taskSize_ := 1 }

/-- Witness for C1 at a concrete full queue. -/
theorem c1_reject_submission_witness :
    ¬ c1w.taskQue_.length < toSizeT c1w.taskQueMaxThreshHold_ ∧
    ThreadPool.submitTask c1w 9 = (c1w, false, 0) ∧
    submitHandle (ThreadPool.submitTask c1w 9).2.1 (0 : Int) = some 0 :=
  ⟨by decide,
   (c1_reject_submission c1w 9 (0 : Int) (by decide)).1,
   (c1_reject_submission c1w 9 (0 : Int) (by decide)).2.2.2.2⟩

/-- C3: when the queue is non-empty the claiming section pops exactly the
front envelope, decrements `idleThreadSize_` and `taskSize_`, notifies
other workers via `notEmpty_` iff the queue is still non-empty, and always
notifies `notFull_`; moreover in every reachable state the dequeue history
followed by the current queue equals the enqueue history, so envelopes are
dequeued in strict FIFO enqueue order. -/
theorem c3_claim_fifo {τ : Type} :
    (∀ (s : Pool τ) (t : τ) (rest : List τ), s.taskQue_ = t :: rest →
      ∃ b1 : Bool,
        claimTask s = some (t,
          { s with idleThreadSize_ := s.idleThreadSize_ - 1
                   taskQue_ := rest
                   taskSize_ := s.taskSize_ - 1
                   deqHist := s.deqHist ++ [t] }, b1, true) ∧
        (b1 = true ↔ rest ≠ [])) ∧
    (∀ s : Pool τ, Reach s → s.enqHist = s.deqHist ++ s.taskQue_) := by
  constructor
  · intro s t rest hq
    refine ⟨decide (0 < rest.length), by rw [claimTask, hq], ?_⟩
    cases rest <;> simp
  · exact fun s h => fifoHist h

/-- Concrete one-envelope pool used by the C3 witness. -/
def c3w : Pool Nat := { poolCtor with taskQue_ := [5], taskSize_ := 1 }

/-- Witness for C3 at a concrete one-envelope queue and the initial state. -/
theorem c3_claim_fifo_witness :
    (∃ b1 : Bool,
      claimTask c3w = some (5,
        { c3w with idleThreadSize_ := c3w.idleThreadSize_ - 1
                   taskQue_ := []
                   taskSize_ := c3w.taskSize_ - 1
                   deqHist := c3w.deqHist ++ [5] }, b1, true) ∧
      (b1 = true ↔ ([] : List Nat) ≠ [])) ∧
    (poolCtor : Pool Nat).enqHist =
      (poolCtor : Pool Nat).deqHist ++ (poolCtor : Pool Nat).taskQue_ :=
  ⟨c3_claim_fifo.1 c3w 5 [] rfl,
   c3_claim_fifo.2 poolCtor (Reach.config poolCtor Config.ctor)⟩

/-- C9: while the pool is running, `setMode`, `setTaskQueMaxThreshHold` and
`setThreadSizeThreshHold` leave the pool state unchanged; outside cached
mode `setThreadSizeThreshHold` never changes the thread ceiling, and when
additionally the pool is not running it is a pure no-op that only emits the
`std::cerr` diagnostic. -/
theorem c9_setters_noop {τ : Type} (s : Pool τ) (m : PoolMode) (q t : Int) :
    (s.isPoolRunning_ = true →
      ThreadPool.setMode s m = s ∧
      ThreadPool.setTaskQueMaxThreshHold s q = s ∧
      ThreadPool.setThreadSizeThreshHold s t = (s, false)) ∧
    (s.poolMode_ ≠ PoolMode.MODE_CACHED →
      (ThreadPool.setThreadSizeThreshHold s t).1.threadSizeThreshHold_ =
        s.threadSizeThreshHold_ ∧
      (s.isPoolRunning_ = false →
        ThreadPool.setThreadSizeThreshHold s t = (s, true))) := by
  constructor
  · intro hr
    refine ⟨?_, ?_, ?_⟩ <;>
      simp [ThreadPool.setMode, ThreadPool.setTaskQueMaxThreshHold,
        ThreadPool.setThreadSizeThreshHold, ThreadPool.checkPoolRunningState, hr]
  · intro hm
    constructor
    · by_cases hr : s.isPoolRunning_ <;>
        simp [ThreadPool.setThreadSizeThreshHold,
          ThreadPool.checkPoolRunningState, hr, hm]
    · intro hr
      simp [ThreadPool.setThreadSizeThreshHold,
        ThreadPool.checkPoolRunningState, hr, hm]

/-- Concrete running pool used by the C9 witness. -/
def c9w : Pool Nat := { poolCtor with isPoolRunning_ := true }

/-- Witness for C9: a running pool ignores `setMode`; a non-running fixed
pool gets only the diagnostic from `setThreadSizeThreshHold`. -/
theorem c9_setters_noop_witness :
    ThreadPool.setMode c9w PoolMode.MODE_CACHED = c9w ∧
    ThreadPool.setThreadSizeThreshHold (poolCtor : Pool Nat) 5 =
      (poolCtor, true) :=
  ⟨((c9_setters_noop c9w PoolMode.MODE_CACHED 0 0).1 rfl).1,
   ((c9_setters_noop (poolCtor : Pool Nat) PoolMode.MODE_FIXED 0 5).2
      (by decide)).2 rfl⟩

/-- C6: on a successful submission, the cached-mode growth branch spawns
exactly one new worker — constructing one `Thread` with the next id,
inserting it into `threads_`, starting its thread (a new entry in the ghost
live set) and incrementing `curThreadSize_` and `idleThreadSize_` — exactly
when, after the enqueue, `taskSize_ > idleThreadSize_` and
`curThreadSize_ < threadSizeThreshHold_` hold in cached mode; otherwise no
worker is spawned and the thread counters are untouched; and no submission
ever spawns more than one worker. -/
theorem c6_cached_spawn {τ : Type} (s : Pool τ) (env : τ)
    (hfull : s.taskQue_.length < toSizeT s.taskQueMaxThreshHold_) :
    ((s.poolMode_ = PoolMode.MODE_CACHED ∧
        s.taskSize_ + 1 > s.idleThreadSize_ ∧
        s.curThreadSize_ < s.threadSizeThreshHold_) →
      (ThreadPool.submitTask s env).2.2 = 1 ∧
      (ThreadPool.submitTask s env).1.curThreadSize_ = s.curThreadSize_ + 1 ∧
      (ThreadPool.submitTask s env).1.idleThreadSize_ =
        s.idleThreadSize_ + 1 ∧
      (ThreadPool.submitTask s env).1.threads_ =
        s.threads_ ++ [(s.generateId_, true)] ∧
      (ThreadPool.submitTask s env).1.workers =
        s.workers ++ [(s.generateId_, WStatus.idle)] ∧
      (ThreadPool.submitTask s env).1.generateId_ = s.generateId_ + 1) ∧
    (¬(s.poolMode_ = PoolMode.MODE_CACHED ∧
        s.taskSize_ + 1 > s.idleThreadSize_ ∧
        s.curThreadSize_ < s.threadSizeThreshHold_) →
      (ThreadPool.submitTask s env).2.2 = 0 ∧
      (ThreadPool.submitTask s env).1.curThreadSize_ = s.curThreadSize_ ∧
      (ThreadPool.submitTask s env).1.idleThreadSize_ = s.idleThreadSize_ ∧
      (ThreadPool.submitTask s env).1.workers = s.workers) ∧
    (∀ (s2 : Pool τ) (env2 : τ), (ThreadPool.submitTask s2 env2).2.2 ≤ 1) := by
  refine ⟨?_, ?_, ?_⟩
  · intro hsp
    unfold ThreadPool.submitTask
    rw [if_pos hfull]
    dsimp only
    rw [if_pos hsp]
    exact ⟨rfl, rfl, rfl, rfl, rfl, rfl⟩
  · intro hsp
    unfold ThreadPool.submitTask
    rw [if_pos hfull]
    dsimp only
    rw [if_neg hsp]
    exact ⟨rfl, rfl, rfl, rfl⟩
  · intro s2 env2
    unfold ThreadPool.submitTask
    by_cases h1 : s2.taskQue_.length < toSizeT s2.taskQueMaxThreshHold_
    · rw [if_pos h1]
      dsimp only
      by_cases h2 : s2.poolMode_ = PoolMode.MODE_CACHED ∧
          s2.taskSize_ + 1 > s2.idleThreadSize_ ∧
          s2.curThreadSize_ < s2.threadSizeThreshHold_
      · rw [if_pos h2]
      · rw [if_neg h2]
        exact Nat.zero_le 1
    · rw [if_neg h1]
      exact Nat.zero_le 1

/-- Concrete cached pool with backlog used by the C6 witness: one busy
worker, no idle worker, so submitting must grow the pool. -/
def c6w : Pool Nat :=
  { poolCtor with poolMode_ := PoolMode.MODE_CACHED
                  isPoolRunning_ := true
                  curThreadSize_ := 1
                  idleThreadSize_ := 0
                  threads_ := [(0, true)]
                  workers := [(0, WStatus.executing)]
                  generateId_ := 1 }

/-- Witness for C6: the concrete submission spawns exactly one worker. -/
theorem c6_cached_spawn_witness :
    (ThreadPool.submitTask c6w 3).2.2 = 1 ∧
    (ThreadPool.submitTask c6w 3).1.curThreadSize_ = c6w.curThreadSize_ + 1 ∧
    (ThreadPool.submitTask c6w 3).1.workers =
      c6w.workers ++ [(1, WStatus.idle)] :=
  ⟨((c6_cached_spawn c6w 3 (by decide)).1 (by decide)).1,
   ((c6_cached_spawn c6w 3 (by decide)).1 (by decide)).2.1,
   ((c6_cached_spawn c6w 3 (by decide)).1 (by decide)).2.2.2.2.1⟩

/-- C5 counterexample: the claim requires self-reclamation exactly when the
worker has been idle strictly longer than the 60-second timeout, but on a
worker idle for exactly 60 seconds (60 000 000 000 elapsed nanoseconds, not
strictly longer than 60 s) with `curThreadSize_ = 2 > 1 = initThreadSize_`
the code's test `dur.count() >= THREAD_MAX_IDLE_TIME` passes and the worker
terminates. -/
def c5w : Pool Nat :=
  { poolCtor with poolMode_ := PoolMode.MODE_CACHED
                  isPoolRunning_ := true
                  initThreadSize_ := 1
                  curThreadSize_ := 2
                  idleThreadSize_ := 2
                  threads_ := [(0, true), (1, true)]
                  workers := [(0, WStatus.idle), (1, WStatus.idle)]
                  generateId_ := 2 }

/-- C5 counterexample theorem: reclamation fires at exactly 60 seconds of
idleness, which is not strictly longer than the 60-second timeout. -/
theorem c5_reclaim_counterexample :
    (reclaimWorker c5w 1 60000000000).2 = true ∧
    ¬ ((60000000000 : Nat) > 60 * 1000000000) :=
  ⟨by decide, by decide⟩

/-- C5 (amended): in the cached-mode timeout branch, a worker
self-terminates exactly when its idle duration is at least 60 seconds
(elapsed nanoseconds truncated to whole seconds, `dur.count() >= 60`) and
`curThreadSize_ > initThreadSize_`; on termination it erases itself from
the live map and decrements `curThreadSize_` and `idleThreadSize_`, so
`curThreadSize_` never drops below `initThreadSize_` through reclamation. -/
theorem c5_reclaim_amended {τ : Type} (s : Pool τ) (threadid : Nat)
    (e : Nat) :
    ((reclaimWorker s threadid e).2 = true ↔
      (60 * 1000000000 ≤ e ∧ s.initThreadSize_ < s.curThreadSize_)) ∧
    ((reclaimWorker s threadid e).2 = true →
      (reclaimWorker s threadid e).1.curThreadSize_ = s.curThreadSize_ - 1 ∧
      (reclaimWorker s threadid e).1.idleThreadSize_ =
        s.idleThreadSize_ - 1 ∧
      (reclaimWorker s threadid e).1.threads_ =
        eraseKey threadid s.threads_ ∧
      hasKey threadid (reclaimWorker s threadid e).1.threads_ = false ∧
      s.initThreadSize_ ≤ (reclaimWorker s threadid e).1.curThreadSize_) := by
  have hiff : reclaimCheck e s.curThreadSize_ s.initThreadSize_ = true ↔
      (60 * 1000000000 ≤ e ∧ s.initThreadSize_ < s.curThreadSize_) := by
    unfold reclaimCheck THREAD_MAX_IDLE_TIME
    rw [Bool.and_eq_true, decide_eq_true_iff, decide_eq_true_iff]
    constructor
    · rintro ⟨h1, h2⟩
      exact ⟨by omega, h2⟩
    · rintro ⟨h1, h2⟩
      exact ⟨by omega, h2⟩
  by_cases hchk : reclaimCheck e s.curThreadSize_ s.initThreadSize_ = true
  · unfold reclaimWorker
    rw [if_pos hchk]
    refine ⟨⟨fun _ => hiff.mp hchk, fun _ => rfl⟩, fun _ => ?_⟩
    have hcur := (hiff.mp hchk).2
    refine ⟨rfl, rfl, rfl, hasKey_eraseKey _ _, ?_⟩
    dsimp only
    omega
  · unfold reclaimWorker
    rw [if_neg hchk]
    refine ⟨⟨fun hfalse => ?_, fun hcond => absurd (hiff.mpr hcond) hchk⟩,
      fun hfalse => ?_⟩
    · exact absurd hfalse (by simp)
    · exact absurd hfalse (by simp)

/-- Witness for the amended C5 at the concrete pool and boundary input. -/
theorem c5_reclaim_amended_witness :
    ((reclaimWorker c5w 1 60000000000).2 = true ↔
      (60 * 1000000000 ≤ 60000000000 ∧
        c5w.initThreadSize_ < c5w.curThreadSize_)) ∧
    (reclaimWorker c5w 1 60000000000).1.curThreadSize_ =
      c5w.curThreadSize_ - 1 ∧
    c5w.initThreadSize_ ≤ (reclaimWorker c5w 1 60000000000).1.curThreadSize_ :=
  ⟨(c5_reclaim_amended c5w 1 60000000000).1,
   ((c5_reclaim_amended c5w 1 60000000000).2 (by decide)).1,
   ((c5_reclaim_amended c5w 1 60000000000).2 (by decide)).2.2.2.2⟩

/-- Concrete running pool (fresh pool started with 3 workers) used by the
C7 counterexample. -/
def c7s : Pool Nat := (ThreadPool.start (poolCtor : Pool Nat) 3).1

/-- C7 counterexample: `ThreadPool::start` performs no running-state check,
so calling it on an already-running pool does not fail — it silently resets
the pool's counters (here from 3 threads to 5), contradicting the claimed
`AlreadyStarted` failure that leaves the state unchanged. -/
theorem c7_doublestart_counterexample :
    c7s.isPoolRunning_ = true ∧
    c7s.curThreadSize_ = 3 ∧
    (ThreadPool.start c7s 5).1.curThreadSize_ = 5 ∧
    (ThreadPool.start c7s 5).1.curThreadSize_ ≠ c7s.curThreadSize_ :=
  ⟨rfl, rfl, rfl, by decide⟩

/-- C7 (amended): the source `start` has no `AlreadyStarted` check of any
kind: invoked on an already-running pool it leaves the running flag set and
silently overwrites `initThreadSize_`, `curThreadSize_` and
`idleThreadSize_` with the new count, and constructs `n.toNat` additional
`Thread` objects (advancing the id counter); the explicit failure exists
only as a reimplementation requirement, not in this code. -/
theorem c7_doublestart_amended {τ : Type} (s : Pool τ) (n : Int)
    (_hr : s.isPoolRunning_ = true) :
    (ThreadPool.start s n).1.isPoolRunning_ = true ∧
    (ThreadPool.start s n).1.initThreadSize_ = n ∧
    (ThreadPool.start s n).1.curThreadSize_ = n ∧
    (ThreadPool.start s n).1.idleThreadSize_ = n ∧
    (ThreadPool.start s n).1.generateId_ = s.generateId_ + n.toNat :=
  ⟨rfl, rfl, rfl, rfl, rfl⟩

/-- Witness for the amended C7 at the concrete running pool. -/
theorem c7_doublestart_amended_witness :
    (ThreadPool.start c7s 5).1.isPoolRunning_ = true ∧
    (ThreadPool.start c7s 5).1.curThreadSize_ = 5 :=
  ⟨(c7_doublestart_amended c7s 5 rfl).1,
   (c7_doublestart_amended c7s 5 rfl).2.2.1⟩

/-- C8 counterexample pool: a non-running cached pool on which one
pre-start submission (`submitTask` has no running check) has already
spawned worker 0, advancing the id counter to 1. -/
def c8x : Pool Nat :=
  (ThreadPool.submitTask
    (ThreadPool.setMode (poolCtor : Pool Nat) PoolMode.MODE_CACHED) 7).1

/-- C8 counterexample: on this non-running pool, `start(2)` constructs the
new workers 1 and 2, but its launch loop `threads_[i]->start()` runs over
the loop indices `0, 1`: it starts the old worker 0 again and worker 1,
and never starts the newly constructed worker 2 — so `start(n)` on a
non-running pool does not in general construct **and start** exactly `n`
workers. -/
theorem c8_start_counterexample :
    c8x.isPoolRunning_ = false ∧
    c8x.generateId_ = 1 ∧
    (ThreadPool.start c8x 2).1.threads_ =
      [(0, true), (1, true), (2, true)] ∧
    (ThreadPool.start c8x 2).2 = [some 0, some 1] ∧
    List.count (some 2) (ThreadPool.start c8x 2).2 = 0 :=
  ⟨by decide, by decide, by decide, by decide, by decide⟩

/-- C8 (amended): `start(n)` on a non-running pool sets the running flag
and `initThreadSize_ = curThreadSize_ = idleThreadSize_ = n`, and
constructs exactly `n` new `Thread` objects (ids drawn from the counter,
which advances by `n`); it moreover starts each newly constructed worker
exactly once in the fresh-pool case — no `Thread` constructed before, id
counter 0 — where the constructed ids `0 .. n-1` coincide with the loop
indices (otherwise the launch loop restarts old workers and misses the
highest new ids, cf. C10).  The unspecified initial count defaults to the
host's detected hardware parallelism
(`std::thread::hardware_concurrency()`). -/
theorem c8_start_amended {τ : Type} (s : Pool τ) (n : Int) (h0 : 0 ≤ n)
    (_hr : s.isPoolRunning_ = false) :
    (ThreadPool.start s n).1.isPoolRunning_ = true ∧
    (ThreadPool.start s n).1.initThreadSize_ = n ∧
    (ThreadPool.start s n).1.curThreadSize_ = n ∧
    (ThreadPool.start s n).1.idleThreadSize_ = n ∧
    (ThreadPool.start s n).1.generateId_ = s.generateId_ + n.toNat ∧
    (s.threads_ = [] → s.workers = [] → s.generateId_ = 0 →
      (ThreadPool.start s n).1.threads_ =
        ((List.range n.toNat).map fun i => (i, true)) ∧
      ((ThreadPool.start s n).1.threads_.length : Int) = n ∧
      (ThreadPool.start s n).1.workers =
        ((List.range n.toNat).map fun i => (i, WStatus.idle)) ∧
      (ThreadPool.start s n).2 = (List.range n.toNat).map some) ∧
    (∀ hwc : Nat, ThreadPool.startDefault s hwc =
      ThreadPool.start s (hwc : Int)) := by
  refine ⟨rfl, rfl, rfl, rfl, rfl, ?_, fun _ => rfl⟩
  intro ht hw hg
  obtain ⟨e1, e2, e3⟩ := start_fresh s n ht hg
  refine ⟨e1, ?_, ?_, e3⟩
  · rw [e1]
    simp only [List.length_map, List.length_range]
    omega
  · rw [e2, hw, List.nil_append]

/-- Witness for the amended C8: starting a fresh pool with 2 workers. -/
theorem c8_start_amended_witness :
    (ThreadPool.start (poolCtor : Pool Nat) 2).1.curThreadSize_ = 2 ∧
    (ThreadPool.start (poolCtor : Pool Nat) 2).2 = [some 0, some 1] := by
  have h := c8_start_amended (poolCtor : Pool Nat) 2 (by decide) rfl
  exact ⟨h.2.2.1, ((h.2.2.2.2.2.1 rfl rfl rfl).2.2.2).trans (by decide)⟩

/-- Occurrences of `some a` in the `some`-image of a contiguous range. -/
theorem count_some_range' (a s n : Nat) :
    List.count (some a) ((List.range' s n).map some) =
      if s ≤ a ∧ a < s + n then 1 else 0 := by
  induction n generalizing s with
  | zero =>
    rw [if_neg (show ¬(s ≤ a ∧ a < s + 0) by omega)]
    rfl
  | succ n ih =>
    rw [List.range'_succ, List.map_cons, List.count_cons, ih (s + 1)]
    simp only [beq_iff_eq, Option.some.injEq]
    split_ifs <;> omega

/-- C10: the launch loop of `start` indexes the worker map with the loop
indices `0 .. n-1`, while the constructed workers carry the ids
`generateId_ .. generateId_ + n - 1` drawn from the monotonically
increasing, never-reused static counter; consequently (for `n ≥ 1`, on a
pool whose map is empty) every newly constructed worker is started exactly
once if and only if the counter was 0 when `start` was called. -/
theorem c10_launch_iff {τ : Type} (s : Pool τ) (n : Int) (h1 : 1 ≤ n)
    (ht : s.threads_ = []) :
    (∀ id ∈ List.range' s.generateId_ n.toNat,
      List.count (some id) (ThreadPool.start s n).2 = 1) ↔
    s.generateId_ = 0 := by
  have hcnt : 1 ≤ n.toNat := by omega
  have hcalls : (ThreadPool.start s n).2 =
      (List.range n.toNat).map fun i =>
        if lookupReal i ((List.range' s.generateId_ n.toNat).map
            fun j => (j, true)) then some i else none := by
    simp only [ThreadPool.start, launchCalls, ht, List.nil_append]
  constructor
  · intro hAll
    by_contra hc0
    have hc1 : 1 ≤ s.generateId_ := Nat.one_le_iff_ne_zero.mpr hc0
    have hmem : s.generateId_ + n.toNat - 1 ∈
        List.range' s.generateId_ n.toNat := by
      rw [List.mem_range'_1]
      omega
    have hcount := hAll (s.generateId_ + n.toNat - 1) hmem
    have hpos : 0 < List.count (some (s.generateId_ + n.toNat - 1))
        (ThreadPool.start s n).2 := by omega
    have hmem2 : some (s.generateId_ + n.toNat - 1) ∈
        (ThreadPool.start s n).2 := List.count_pos_iff.mp hpos
    rw [hcalls] at hmem2
    rcases List.mem_map.mp hmem2 with ⟨i, hi, hIf⟩
    have hlt : i < n.toNat := List.mem_range.mp hi
    by_cases hlk : lookupReal i ((List.range' s.generateId_ n.toNat).map
        fun j => (j, true)) = true
    · rw [if_pos hlk] at hIf
      have : i = s.generateId_ + n.toNat - 1 := by
        simpa using hIf
      omega
    · rw [if_neg hlk] at hIf
      exact absurd hIf (by simp)
  · intro hg
    intro id hid
    rw [hg] at hid
    have hb := List.mem_range'_1.mp hid
    rw [hcalls, hg, ← List.range_eq_range']
    have hmap : ((List.range n.toNat).map fun i =>
        if lookupReal i ((List.range n.toNat).map fun j => (j, true))
        then some i else none) = (List.range n.toNat).map some :=
      List.map_congr_left fun i hi => by
        simp [(lookupReal_map_true (List.range n.toNat) i).mpr hi]
    rw [hmap, List.range_eq_range', count_some_range',
      if_pos (show 0 ≤ id ∧ id < 0 + n.toNat by omega)]

/-- Witness for C10: on a fresh pool (counter 0) started with one worker,
worker 0 is launched exactly once. -/
theorem c10_launch_iff_witness :
    (poolCtor : Pool Nat).generateId_ = 0 ∧
    List.count (some 0) (ThreadPool.start (poolCtor : Pool Nat) 1).2 = 1 :=
  ⟨rfl,
   (c10_launch_iff (poolCtor : Pool Nat) 1 (by decide) rfl).mpr rfl 0
     (by decide)⟩

/-- `reclaimWorker` never touches the shutdown-exit ghost counter. -/
theorem reclaim_exited {τ : Type} (s : Pool τ) (w e : Nat) :
    (reclaimWorker s w e).1.exitedNoDec = s.exitedNoDec := by
  unfold reclaimWorker
  by_cases h : reclaimCheck e s.curThreadSize_ s.initThreadSize_ = true
  · rw [if_pos h]
  · rw [if_neg h]

/-- Trace for the C2 counterexample: fresh pool, `start(1)`, destructor
begins (`running = false`), a racing `submitTask` enqueues envelope 42. -/
def c2s1 : Pool Nat := (ThreadPool.start (poolCtor : Pool Nat) 1).1

/-- C2 trace: after `stopBegin` the running flag is down. -/
def c2s2 : Pool Nat := stopBegin c2s1

/-- C2 trace: the racing submission has enqueued envelope 42. -/
def c2s3 : Pool Nat := (ThreadPool.submitTask c2s2 42).1

/-- C2 trace: the pool after worker 0 executes the claiming section. -/
def c2s4 : Pool Nat :=
  { c2s3 with idleThreadSize_ := c2s3.idleThreadSize_ - 1
              taskQue_ := []
              taskSize_ := c2s3.taskSize_ - 1
              deqHist := c2s3.deqHist ++ [42] }

/-- C2 trace: same state with worker 0 now marked executing. -/
def c2s5 : Pool Nat := { c2s4 with workers := [] ++ (0, WStatus.executing) :: [] }

/-- C2 counterexample: the running check of `threadFunc` sits inside
`while (taskQue_.size() == 0)`, so a worker that observes a non-empty queue
claims the task even after shutdown has begun.  From the reachable state
`c2s3` (shutdown begun, racing envelope 42 enqueued, worker 0 idle) the
claiming step fires and consumes the task — the claim that no worker ever
claims after `running = false` is false on this code. -/
theorem c2_shutdown_counterexample :
    Reach c2s3 ∧ c2s3.isPoolRunning_ = false ∧ c2s3.taskQue_ = [42] ∧
    Step c2s3 c2s5 ∧ Reach c2s5 ∧ c2s5.deqHist = [42] ∧
    c2s5.taskQue_ = [] := by
  have r1 : Reach c2s1 :=
    Reach.step _ _ (Reach.config _ Config.ctor)
      (Step.startP poolCtor 1)
  have r2 : Reach c2s2 := Reach.step _ _ r1 (Step.stopB c2s1)
  have r3 : Reach c2s3 := Reach.step _ _ r2 (Step.submit c2s2 42)
  have hwk : c2s3.workers = [] ++ (0, WStatus.idle) :: [] := by decide
  have hcl : claimTask c2s3 = some (42, c2s4, false, true) := by decide
  have hstep : Step c2s3 c2s5 :=
    Step.claim c2s3 0 [] [] 42 c2s4 false true hwk hcl
  exact ⟨r3, by decide, by decide, hstep, Reach.step _ _ r3 hstep,
    by decide, by decide⟩

/-- C2 (amended): after shutdown begins workers do not stop claiming: the
worker loop claims from a non-empty queue regardless of the running flag,
and a worker exits through the shutdown branch only after observing an
empty queue; a task enqueued by a submission racing with shutdown is
therefore consumed if some live worker observes it, and can only remain
unconsumed when no live worker remains. -/
theorem c2_shutdown_amended {τ : Type} :
    (∀ (s s2 : Pool τ), Step s s2 →
      s2.exitedNoDec = s.exitedNoDec + 1 → s.taskQue_ = []) ∧
    (∀ (s : Pool τ) (t : τ) (rest : List τ),
      s.isPoolRunning_ = false → s.taskQue_ = t :: rest →
      ∃ s1 b1 b2, claimTask s = some (t, s1, b1, b2)) := by
  constructor
  · intro s s2 hstep hx
    cases hstep with
    | startP n =>
      exfalso
      simp only [ThreadPool.start] at hx
      omega
    | submit env =>
      exfalso
      rw [submit_exited] at hx
      omega
    | claim w l1 l2 t s1 b1 b2 hwk hcl =>
      exfalso
      cases hq : s.taskQue_ with
      | nil => rw [claimTask, hq] at hcl; simp at hcl
      | cons t0 rest =>
        rw [claimTask, hq] at hcl
        simp only [Option.some.injEq, Prod.mk.injEq] at hcl
        obtain ⟨-, hs1, -, -⟩ := hcl
        subst hs1
        dsimp only at hx
        omega
    | finish w l1 l2 hwk =>
      exfalso
      dsimp only at hx
      omega
    | reclaim w l1 l2 e hwk hm hchk =>
      exfalso
      dsimp only at hx
      rw [reclaim_exited] at hx
      omega
    | exitSd w l1 l2 hwk hq hrr => exact hq
    | stopB =>
      exfalso
      dsimp only [stopBegin] at hx
      omega
  · intro s t rest hr hq
    exact ⟨_, _, _, by rw [claimTask, hq]⟩

/-- Concrete idle-worker pool with empty queue for the C2 witness. -/
def c2w : Pool Nat :=
  { poolCtor with threads_ := [(0, true)]
                  workers := [(0, WStatus.idle)]
                  curThreadSize_ := 1
                  idleThreadSize_ := 1 }

/-- Concrete shut-down pool with a queued envelope for the C2 witness. -/
def c2w2 : Pool Nat := { poolCtor with taskQue_ := [42], taskSize_ := 1 }

/-- Witness for the amended C2: a shutdown exit happens only with an empty
queue, and a non-empty queue keeps the claiming section enabled. -/
theorem c2_shutdown_amended_witness :
    c2w.taskQue_ = ([] : List Nat) ∧
    (∃ s1 b1 b2, claimTask c2w2 = some (42, s1, b1, b2)) :=
  ⟨c2_shutdown_amended.1 c2w _ (Step.exitSd c2w 0 [] [] rfl rfl rfl) rfl,
   c2_shutdown_amended.2 c2w2 42 [] rfl rfl⟩

/-- C4 counterexample trace: cached mode with thread ceiling 2. -/
def c4d2 : Pool Nat :=
  (ThreadPool.setThreadSizeThreshHold
    (ThreadPool.setMode (poolCtor : Pool Nat) PoolMode.MODE_CACHED) 2).1

/-- C4 trace: a pre-start submission (no running check in `submitTask`)
enqueues 101 and spawns worker 0. -/
def c4d3 : Pool Nat := (ThreadPool.submitTask c4d2 101).1

/-- C4 trace: a second pre-start submission enqueues 102 and spawns
worker 1. -/
def c4d4 : Pool Nat := (ThreadPool.submitTask c4d3 102).1

/-- C4 trace: `start(2)` constructs workers 2 and 3 but its launch loop
`threads_[i]->start()` for `i = 0, 1` relaunches the old workers 0 and 1
(two more detached threads running `threadFunc`), and resets
`curThreadSize_ = idleThreadSize_ = 2` although four worker threads are now
live. -/
def c4d5 : Pool Nat := (ThreadPool.start c4d4 2).1

/-- C4 trace: a third submission enqueues 103 (no spawn: the ceiling 2 is
reached). -/
def c4d6 : Pool Nat := (ThreadPool.submitTask c4d5 103).1

/-- C4 trace: pool state written by the first claiming section. -/
def c4t1 : Pool Nat :=
  { c4d6 with idleThreadSize_ := c4d6.idleThreadSize_ - 1
              taskQue_ := [102, 103]
              taskSize_ := c4d6.taskSize_ - 1
              deqHist := c4d6.deqHist ++ [101] }

/-- C4 trace: the first of the four live workers is now executing. -/
def c4u1 : Pool Nat :=
  { c4t1 with workers :=
      [] ++ (0, WStatus.executing) ::
        [(1, WStatus.idle), (0, WStatus.idle), (1, WStatus.idle)] }

/-- C4 trace: pool state written by the second claiming section. -/
def c4t2 : Pool Nat :=
  { c4u1 with idleThreadSize_ := c4u1.idleThreadSize_ - 1
              taskQue_ := [103]
              taskSize_ := c4u1.taskSize_ - 1
              deqHist := c4u1.deqHist ++ [102] }

/-- C4 trace: a second live worker is executing. -/
def c4u2 : Pool Nat :=
  { c4t2 with workers :=
      [(0, WStatus.executing)] ++ (1, WStatus.executing) ::
        [(0, WStatus.idle), (1, WStatus.idle)] }

/-- C4 trace: pool state written by the third claiming section —
`idleThreadSize_` has now been decremented three times from 2. -/
def c4t3 : Pool Nat :=
  { c4u2 with idleThreadSize_ := c4u2.idleThreadSize_ - 1
              taskQue_ := []
              taskSize_ := c4u2.taskSize_ - 1
              deqHist := c4u2.deqHist ++ [103] }

/-- C4 trace: final state with three executing workers. -/
def c4u3 : Pool Nat :=
  { c4t3 with workers :=
      [(0, WStatus.executing), (1, WStatus.executing)] ++
        (0, WStatus.executing) :: [(1, WStatus.idle)] }

/-- C4 counterexample: the claimed invariant `0 ≤ idle_threads` fails on a
reachable state.  `submitTask` has no running check, so two cached-mode
submissions before `start` spawn workers 0 and 1; `start(2)` then
relaunches those two old `Thread` objects (its loop indexes `threads_` by
`0..1`) while resetting `idleThreadSize_` to 2, leaving four live worker
threads; three claiming sections then drive `idleThreadSize_` to −1. -/
theorem c4_invariant_counterexample :
    Reach c4u3 ∧ c4u3.idleThreadSize_ = -1 ∧
    ¬ 0 ≤ c4u3.idleThreadSize_ := by
  have r3 : Reach c4d3 :=
    Reach.step _ _
      (Reach.config _ (Config.setT _ 2 (Config.setM _ _ Config.ctor)))
      (Step.submit c4d2 101)
  have r4 : Reach c4d4 := Reach.step _ _ r3 (Step.submit c4d3 102)
  have r5 : Reach c4d5 := Reach.step _ _ r4 (Step.startP c4d4 2)
  have r6 : Reach c4d6 := Reach.step _ _ r5 (Step.submit c4d5 103)
  have s1 : Step c4d6 c4u1 :=
    Step.claim c4d6 0 []
      [(1, WStatus.idle), (0, WStatus.idle), (1, WStatus.idle)]
      101 c4t1 true true (by decide) (by decide)
  have s2 : Step c4u1 c4u2 :=
    Step.claim c4u1 1 [(0, WStatus.executing)]
      [(0, WStatus.idle), (1, WStatus.idle)]
      102 c4t2 true true (by decide) (by decide)
  have s3 : Step c4u2 c4u3 :=
    Step.claim c4u2 0 [(0, WStatus.executing), (1, WStatus.executing)]
      [(1, WStatus.idle)]
      103 c4t3 false true (by decide) (by decide)
  exact ⟨Reach.step _ _ (Reach.step _ _ (Reach.step _ _ r6 s1) s2) s3,
    by decide, by decide⟩

/-- C4 (amended): provided the configured thresholds are nonnegative `int`
values, and `start` is invoked only as the pool's first thread-creating
operation — on the not-yet-running pool before any `Thread` has been
constructed (empty worker map and live set, id counter 0) — with a
nonnegative count that, in cached mode, is at most
`threadSizeThreshHold_` (exactly the `GConfig`/`GReach` guards), every
reachable state satisfies `0 ≤ idleThreadSize_ ≤ curThreadSize_`, in
cached mode `curThreadSize_ ≤ threadSizeThreshHold_`, the queue bound
`taskSize_ ≤ taskQueMaxThreshHold_`, and `taskSize_` equals the live
length of the task queue. -/
theorem c4_invariant_amended {τ : Type} (s : Pool τ) (h : GReach s) :
    0 ≤ s.idleThreadSize_ ∧
    s.idleThreadSize_ ≤ s.curThreadSize_ ∧
    (s.poolMode_ = PoolMode.MODE_CACHED →
      s.curThreadSize_ ≤ s.threadSizeThreshHold_) ∧
    s.taskSize_ ≤ s.taskQueMaxThreshHold_ ∧
    s.taskSize_ = (s.taskQue_.length : Int) := by
  obtain ⟨b1, b2, b3, i4, i5, i6, i7, i8⟩ := inv_reach h
  have hcl : countIdle s.workers ≤ s.workers.length := by
    unfold countIdle
    exact List.countP_le_length _
  refine ⟨by omega, by omega, i8, i5, i4⟩

/-- Witness for the amended C4 at the freshly constructed pool. -/
theorem c4_invariant_amended_witness :
    0 ≤ (poolCtor : Pool Nat).idleThreadSize_ ∧
    (poolCtor : Pool Nat).taskSize_ =
      ((poolCtor : Pool Nat).taskQue_.length : Int) :=
  ⟨(c4_invariant_amended poolCtor (GReach.config _ GConfig.ctor)).1,
   (c4_invariant_amended poolCtor (GReach.config _ GConfig.ctor)).2.2.2.2⟩
